import Mathlib

/-!
Verification development for the gawr pipeline orchestrator.

Shallow embedding of the cache database (src/database/sqlite.rs), the
Download actor (src/actors/download_actor.rs), the Fan-out actor
(src/actors/timestamp_actor.rs), the Clip worker (src/actors/clipper_actor.rs)
and the output-name search (src/io.rs), together with theorems settling the
frozen specification claims.

Modelling conventions:
- SQLite tables are lists of rows; the single connection's read/write lock is
  irrelevant to the per-operation functional behaviour modelled here.
- Rust u16 / u64 arithmetic is Nat with explicit `% 2 ^ 16` / `% 2 ^ 64`
  where a cast or overflow occurs in the source.
- Fallible Rust code returns Except/Option; a Rust panic is `none`.
- SQL statement strings are modelled as List Char so that the exact
  string-trimming behaviour of `Sqlite::assign_work` is reproduced.
-/

namespace Gawr

/-- `ProcessedState` from src/database/mod.rs.  Clip indexes are `ClipIdx = u16`,
modelled as Nat. -/
inductive ProcessedState where
  | NotProcessed
  | RemainingClips (v : List Nat)
  | ProcessedClips (v : List Nat)
  | Completed
deriving DecidableEq, Repr, Inhabited

/-- One row of the `videos` table (src/database/sqlite.rs `create_tables`):
`id INTEGER PRIMARY KEY, status INTEGER, str_id TEXT NOT NULL, work_len INTEGER`. -/
structure VideoRow where
  id : Nat
  status : Nat
  str_id : String
  work_len : Option Nat
deriving DecidableEq, Repr

/-- The cache database: the `videos` table, the `work` table
(rows `(video_id, clip_idx)`), and the next rowid handed out by an INSERT. -/
structure Db where
  videos : List VideoRow
  work : List (Nat × Nat)
  nextId : Nat
deriving DecidableEq, Repr

/-- `SqliteProcessedState::column_result` (src/database/sqlite.rs): stored
status 0 decodes to NotProcessed, 1 to Completed, anything else is a
`FromSqlError::OutOfRange` error. -/
def decodeStatus (n : Nat) : Option ProcessedState :=
  if n = 0 then some ProcessedState.NotProcessed
  else if n = 1 then some ProcessedState.Completed
  else none

/-- The clip indexes recorded in the `work` table for a given video id, in
table order (`SELECT clip_idx FROM work WHERE video_id = ?`). -/
def workIdxsOf (db : Db) (id : Nat) : List Nat :=
  (db.work.filter (fun w => w.1 == id)).map (fun w => w.2)

/-- `Sqlite::check_video` (src/database/sqlite.rs lines 35-96).
SELECT the row by `str_id`; if absent, INSERT a new row with status
NotProcessed (stored as 0) and NULL work_len, returning the fresh rowid.
If present with status Completed or NULL work_len, return that state directly;
otherwise collect the remaining `work.clip_idx` values. -/
def check_video (db : Db) (video_id : String) :
    Except String (Nat × ProcessedState) × Db :=
  match db.videos.find? (fun r => r.str_id == video_id) with
  | some r =>
    match decodeStatus r.status with
    | none => (Except.error "Could not query specified video row", db)
    | some st =>
      if st = ProcessedState.Completed ∨ r.work_len = none then
        (Except.ok (r.id, st), db)
      else
        (Except.ok (r.id, ProcessedState.RemainingClips (workIdxsOf db r.id)), db)
  | none =>
    (Except.ok (db.nextId, ProcessedState.NotProcessed),
     { db with
        videos := db.videos ++ [{ id := db.nextId, status := 0,
                                  str_id := video_id, work_len := none }],
        nextId := db.nextId + 1 })

/-- One `(video, idx)` tuple of the VALUES list built by `Sqlite::assign_work`:
`writeln!(query, "({video}, {idx}),")` appends the tuple text, a comma and a
newline. -/
def insertRowChars (video idx : Nat) : List Char :=
  ("(" ++ Nat.repr video ++ ", " ++ Nat.repr idx ++ ")").toList ++ [',', '\n']

/-- The INSERT statement built by `Sqlite::assign_work`
(src/database/sqlite.rs lines 109-114): the header ending in a newline, one
tuple line per clip index, then two `pop` calls that drop the last two
characters (intended to drop the trailing ",\n"; for `nb = 0` they instead
drop the newline and the final `S` of `VALUES`). -/
def insertQueryChars (video nb : Nat) : List Char :=
  (("INSERT INTO work (video_id, clip_idx) VALUES\n").toList ++
    List.flatten ((List.range nb).map (fun idx => insertRowChars video idx))
  ).dropLast.dropLast

/-- SQLite accepts the generated statement only when the `VALUES` keyword
survived, i.e. the statement still starts with the INSERT header; the
truncated `... VALUE` text for `nb = 0` is a syntax error. -/
def insertQueryOk (q : List Char) : Bool :=
  ("INSERT INTO work (video_id, clip_idx) VALUES").toList.isPrefixOf q

/-- `Sqlite::assign_work` (src/database/sqlite.rs lines 98-130).
First DELETE every prior work row of the video (this commits immediately:
there is no surrounding transaction), then execute the generated INSERT; on
success, additionally UPDATE `videos.work_len`.  `nb` is the `ClipIdx = u16`
argument. -/
def assign_work (db : Db) (video nb : Nat) : Except String Unit × Db :=
  let db1 : Db := { db with work := db.work.filter (fun w => w.1 != video) }
  if insertQueryOk (insertQueryChars video nb) then
    (Except.ok (),
     { db1 with
        work := db1.work ++ (List.range nb).map (fun i => (video, i)),
        videos := db1.videos.map (fun r =>
          if r.id = video then { r with work_len := some nb } else r) })
  else
    (Except.error "Could not insert new assigned work rows", db1)

/-- `Sqlite::complete_work` (src/database/sqlite.rs lines 132-142):
DELETE the single work row. -/
def complete_work (db : Db) (video idx : Nat) : Db :=
  { db with work := db.work.filter (fun w => !(w.1 == video && w.2 == idx)) }

/-- `Sqlite::set_video_as_completed` (src/database/sqlite.rs lines 144-165):
UPDATE the status to Completed (stored as 1), then DELETE all remaining work
rows of the video. -/
def set_video_as_completed (db : Db) (video : Nat) : Db :=
  { db with
      videos := db.videos.map (fun r =>
        if r.id = video then { r with status := 1 } else r),
      work := db.work.filter (fun w => w.1 != video) }

/-! ## Download actor (src/actors/download_actor.rs) -/

/-- `Timestamp` from src/types/timestamp.rs. -/
structure Timestamp where
  t_start : String
  title : String
deriving DecidableEq, Repr, Inhabited

/-- `Metadata` from src/types/metadata.rs; `duration` is a u64 of seconds. -/
structure Metadata where
  title : String
  uploader : String
  duration : Nat
  description : String
deriving DecidableEq, Repr, Inhabited

/-- Rust `str::split(c)`: split at every occurrence of `c`; the empty string
yields a single empty part, and a trailing separator yields a trailing empty
part. -/
def splitOnChar (c : Char) : List Char → List (List Char)
  | [] => [[]]
  | a :: t =>
    let r := splitOnChar c t
    if a = c then [] :: r
    else
      match r with
      | [] => [[a]]
      | h :: t2 => (a :: h) :: t2

/-- Rust `str::parse::<u64>`: an optional leading plus sign then at least one
digit, and values of 2^64 or more are a parse error (which the source
unwraps, i.e. panics on). -/
def parseU64 (l : List Char) : Option Nat :=
  let l2 := match l with
    | '+' :: t => t
    | _ => l
  if l2 = [] then none
  else
    (l2.foldlM (fun (acc : Nat) (c : Char) =>
        if c.isDigit then some (acc * 10 + (c.toNat - 48)) else none) 0).bind
      (fun n => if n < 2 ^ 64 then some n else none)

/-- `Timestamp::to_seconds` (src/types/timestamp.rs lines 13-19): split on
colons, parse each part as u64 (panic on failure, modelled as none) and fold
`sec = 60 * sec + n` in wrapping u64 arithmetic. -/
def to_seconds (tstamp : String) : Option Nat :=
  (splitOnChar ':' tstamp.toList).foldlM
    (fun sec s => (parseU64 s).map (fun n => (60 * sec + n) % 2 ^ 64)) 0

/-- `DownloadActor::is_file_complete` (src/actors/download_actor.rs lines
178-189): with no timestamp the file is complete; otherwise the file is
complete exactly when `last_secs + MIN_CLIP_LENGTH < stream_duration` with
`MIN_CLIP_LENGTH = 10` (u64 addition).  `none` models the panic on an
unparsable `t_start`. -/
def is_file_complete (stream_duration : Nat) (timestamps : List Timestamp) :
    Option Bool :=
  match timestamps.getLast? with
  | some last => (to_seconds last.t_start).map
      (fun s => decide ((s + 10) % 2 ^ 64 < stream_duration))
  | none => some true

/-- The empty-timestamps fallback in `download_and_extract_metadata`
(src/actors/download_actor.rs lines 158-166): an empty sequence is replaced
by the single entry `{ t_start: "00:00", title: metadata.title }`. -/
def fallbackIfEmpty (ts : List Timestamp) (meta : Metadata) : List Timestamp :=
  if ts.isEmpty then [{ t_start := "00:00", title := meta.title }] else ts

/-- Outcome of one iteration of the download loop in
`download_and_extract_metadata`: panic, `continue` (re-download), or return. -/
inductive IterResult where
  | panic
  | retry
  | done (ts : List Timestamp)
deriving DecidableEq, Repr

/-- One iteration of the loop of `DownloadActor::download_and_extract_metadata`
(src/actors/download_actor.rs lines 135-169).  `extracted` is the result of
`Timestamps::extract_timestamps` on the description (constant across
iterations).  With `skip_timestamps` the completeness check is skipped and the
sequence is empty, so the single-entry fallback applies; otherwise an
incomplete file restarts the loop. -/
def downloadIteration (skip_timestamps : Bool) (extracted : List Timestamp)
    (meta : Metadata) : IterResult :=
  if skip_timestamps then
    IterResult.done (fallbackIfEmpty [] meta)
  else
    match is_file_complete meta.duration extracted with
    | none => IterResult.panic
    | some false => IterResult.retry
    | some true => IterResult.done (fallbackIfEmpty extracted meta)

/-- Result of `download_and_extract_metadata` as seen by `DownloadActor::run`:
success, the distinguished `Error::UnavailableStream`, or any other error. -/
inductive DlResult where
  | ok (meta : Metadata) (ts : List Timestamp)
  | unavailable
  | fatal
deriving Repr

/-- The `DownloadedStream` message (src/actors/message.rs) minus the temp-file
handle. -/
structure SentStream where
  video_id : String
  meta : Metadata
  ts : List Timestamp
  dbId : Nat
  state : ProcessedState
deriving Repr

/-- One iteration of `DownloadActor::run` (src/actors/download_actor.rs lines
50-101) for one received video id: check the cache, skip if Completed;
otherwise the download either succeeds (the stream is sent), fails with
UnavailableStream (the video is recorded completed, nothing is sent, the loop
continues), or fails fatally (the error propagates and the actor stops).
`Except.ok none` = continue without sending. -/
def downloadStep (db : Db) (video_id : String) (dl : DlResult) :
    Except String (Option SentStream) × Db :=
  match check_video db video_id with
  | (Except.error e, db1) => (Except.error e, db1)
  | (Except.ok (dbId, state), db1) =>
    if state = ProcessedState.Completed then
      (Except.ok none, db1)
    else
      match dl with
      | DlResult.ok m ts =>
          (Except.ok (some { video_id := video_id, meta := m, ts := ts,
                             dbId := dbId, state := state }), db1)
      | DlResult.unavailable =>
          (Except.ok none, set_video_as_completed db1 dbId)
      | DlResult.fatal =>
          (Except.error "Could not download and extract metadata and timestamps",
           db1)

/-! ## Fan-out actor (src/actors/timestamp_actor.rs) -/

/-- Observable actions of one Fan-out iteration: the cache calls it makes and
the `TimestampedClip` messages it sends, in program order. -/
inductive FanEvent where
  | assignWork (dbId : Nat) (n : Nat)
  | setCompleted (dbId : Nat)
  | emit (start : Timestamp) (stop : Option Timestamp) (clipIdx : Nat)
deriving DecidableEq, Repr

/-- The tail of one Fan-out iteration after the work list is derived
(src/actors/timestamp_actor.rs lines 72-111): an empty list triggers
`set_video_as_completed`; otherwise one message per index, with
`start = timestamps[clip_idx]` (an out-of-range index panics, modelled as
none) and `end = timestamps.get(clip_idx + 1)`. -/
def fanoutEmit (dbId : Nat) (pre : List FanEvent) (work : List Nat)
    (ts : List Timestamp) : Option (List FanEvent) :=
  if work.isEmpty then
    some (pre ++ [FanEvent.setCompleted dbId])
  else
    (work.mapM (fun i => (ts[i]?).map (fun s => FanEvent.emit s ts[i + 1]? i))).map
      (fun clips => pre ++ clips)

/-- One iteration of `TimestampActor::run` (src/actors/timestamp_actor.rs
lines 57-111) for one received `DownloadedStream`.  The `as _` casts to
`ClipIdx = u16` are `% 2 ^ 16`.  For NotProcessed, `assign_work` is called
first; when its u16 clip count is 0 the INSERT it builds is malformed (see
`assign_work`), the error propagates and the actor aborts (none).
`Completed` hits `unimplemented!()` (none). -/
def fanoutStep (dbId : Nat) (state : ProcessedState) (ts : List Timestamp) :
    Option (List FanEvent) :=
  match state with
  | ProcessedState.Completed => none
  | ProcessedState.NotProcessed =>
    if ts.length % 2 ^ 16 = 0 then none
    else
      fanoutEmit dbId [FanEvent.assignWork dbId (ts.length % 2 ^ 16)]
        ((List.range ts.length).map (fun n => n % 2 ^ 16)) ts
  | ProcessedState.RemainingClips v => fanoutEmit dbId [] v ts
  | ProcessedState.ProcessedClips v =>
      fanoutEmit dbId []
        (((List.range ts.length).map (fun n => n % 2 ^ 16)).filter
          (fun n => !v.contains n)) ts

/-! ## Clip worker (src/actors/clipper_actor.rs) -/

/-- Observable side effects of one Clip-worker iteration, in program order.
File paths are strings; the placeholder is `stem ++ ".empty"` and the final
path is `stem ++ ext` (the `with_extension` swap on the reserved path). -/
inductive ClipEffect where
  | touchEmpty (p : String)
  | extractClip (src dst : String)
  | normalizeAudio (src dst : String)
  | renameFile (src dst : String)
  | copyFile (src dst : String)
  | completeWork (dbId clipIdx : Nat)
  | removeFile (p : String)
  | setCompleted (dbId : Nat)
deriving DecidableEq, Repr

/-- Inputs and environment outcomes of one Clip-worker iteration:
the message fields, the reserved output stem, the temp files, and whether each
fallible external step succeeds.  `lastShare` is whether
`Arc::strong_count(&stream_info) == 1` is observed at the end. -/
structure ClipRun where
  dbId : Nat
  clipIdx : Nat
  stem : String
  ext : String
  streamPath : String
  tmpExtract : String
  tmpOut : String
  extractOk : Bool
  normalizeOk : Bool
  renameOk : Bool
  lastShare : Bool
deriving Repr

/-- One iteration of `ClipperActor::run` (src/actors/clipper_actor.rs lines
61-121): reserve the output path (creating the `.empty` placeholder), cut and
normalize into the temp output (`create_clip`, lines 182-204; a failure
propagates and aborts the iteration with the effects so far), publish by
rename with copy fallback (lines 103-106), `complete_work` (line 108), unlink
the placeholder (line 111), and `set_video_as_completed` when the last share
was observed (lines 116-118).  Returns the effect trace and whether the
iteration succeeded. -/
def clipperStep (c : ClipRun) : List ClipEffect × Bool :=
  let empty := c.stem ++ ".empty"
  let final := c.stem ++ c.ext
  let t1 := [ClipEffect.touchEmpty empty,
             ClipEffect.extractClip c.streamPath c.tmpExtract]
  if !c.extractOk then (t1, false) else
  let t2 := t1 ++ [ClipEffect.normalizeAudio c.tmpExtract c.tmpOut]
  if !c.normalizeOk then (t2, false) else
  let t3 := t2 ++ (if c.renameOk then [ClipEffect.renameFile c.tmpOut final]
                   else [ClipEffect.copyFile c.tmpOut final])
  let t4 := t3 ++ [ClipEffect.completeWork c.dbId c.clipIdx,
                   ClipEffect.removeFile empty]
  (t4 ++ (if c.lastShare then [ClipEffect.setCompleted c.dbId] else []), true)

/-- Effect of one `ClipEffect` on the set of existing files (a predicate on
paths): touch/extract/normalize/copy create their destination, a rename moves
its source to its destination, removeFile unlinks, cache calls leave the
filesystem unchanged. -/
def fsApply (fs : String → Bool) (e : ClipEffect) : String → Bool :=
  match e with
  | ClipEffect.touchEmpty p => fun s => s == p || fs s
  | ClipEffect.extractClip _ dst => fun s => s == dst || fs s
  | ClipEffect.normalizeAudio _ dst => fun s => s == dst || fs s
  | ClipEffect.renameFile src dst =>
      fun s => if s == src then false else (s == dst || fs s)
  | ClipEffect.copyFile _ dst => fun s => s == dst || fs s
  | ClipEffect.removeFile p => fun s => if s == p then false else fs s
  | ClipEffect.completeWork _ _ => fs
  | ClipEffect.setCompleted _ => fs

/-- Run a trace of effects over a filesystem state. -/
def fsRun (fs : String → Bool) (l : List ClipEffect) : String → Bool :=
  l.foldl fsApply fs

/-! ## Shared-ownership lifecycle (Arc StreamInfo)

For a video with `n` in-flight clips there are `n + 1` strong references to
its `StreamInfo`: one per `TimestampedClip` message (cloned by the Fan-out
actor before each send, src/actors/timestamp_actor.rs line 104) and the
Fan-out actor's own `stream_info`, dropped at the end of its iteration (after
all sends).  A worker's test `Arc::strong_count(&stream_info) == 1`
(src/actors/clipper_actor.rs line 116) runs while the worker still holds its
own clone, so it observes 1 exactly when every one of the other `n`
references has already been released — which requires the Fan-out actor's
drop to have happened, and hence all `n` clones to exist.  The order in which
the `n + 1` references are released therefore fully determines each worker's
observation, and we model a video's lifecycle as a permutation of those
`n + 1` release events. -/

/-- A release of one strong reference to a video's `StreamInfo`: the Fan-out
actor dropping its own handle, or worker processing of clip `i` ending (the
`strong_count` test happens immediately before this release). -/
inductive RcEvent where
  | fanoutDrop
  | clipDone (i : Nat)
deriving DecidableEq, Repr

/-- The full set of release events for a video with `n` in-flight clips. -/
def rcEvents (n : Nat) : List RcEvent :=
  RcEvent.fanoutDrop :: (List.range n).map RcEvent.clipDone

/-- The clip indexes whose workers call `set_video_as_completed`: before the
k-th release, `n + 1 - k` references are live, and the worker releasing the
k-th observes `strong_count` equal to that number; it makes the call exactly
when it observes 1. -/
def completionCalls (n : Nat) (tr : List RcEvent) : List Nat :=
  (List.range tr.length).filterMap (fun k =>
    match tr[k]? with
    | some (RcEvent.clipDone i) => if n + 1 - k = 1 then some i else none
    | _ => none)

/-! ## Output-name search (src/io.rs) and reservation -/

/-- The i-th filename probed by `build_output_path` (src/io.rs lines 16-50):
probe 0 is `title ++ ext`; probe i for i ≥ 1 is `title ++ " (n)" ++ ext`
where `n` is the u16 counter that starts at 2 and, being a `RangeFrom<u16>`
iterator in a release build, wraps modulo 2^16 (in a debug build the wrap is
a panic instead; under neither semantics does the loop finish), so
`n = (i + 1) % 2 ^ 16`. -/
def bopCandidate (title ext : List Char) (i : Nat) : List Char :=
  if i = 0 then title ++ ext
  else title ++ (" (").toList ++ (Nat.repr ((i + 1) % 2 ^ 16)).toList
         ++ (")").toList ++ ext

/-- The probe loop of `build_output_path`, fuel-bounded: starting at probe
`i`, return the first candidate that does not exist, or none if `fuel`
probes all hit existing files (the source loop would still be running). -/
def bopLoop (ex : List Char → Bool) (title ext : List Char) :
    Nat → Nat → Option (List Char)
  | 0, _ => none
  | fuel + 1, i =>
    if ex (bopCandidate title ext i) then bopLoop ex title ext fuel (i + 1)
    else some (bopCandidate title ext i)

/-- Modelled from the spec: `find_unused_prefix` (called by
`ClipperActor::reserve_output_path`, src/actors/clipper_actor.rs line 163) is
code of this repository that is not under src/.  Spec section 4.6: the i-th
candidate stem is the title for i = 0 and `title (n)` with n = i + 1 for
i ≥ 1 (n = 2, 3, ...). -/
def candStem (title : List Char) (i : Nat) : List Char :=
  if i = 0 then title
  else title ++ (" (").toList ++ (Nat.repr (i + 1)).toList ++ (")").toList

/-- Modelled from the spec: the selection loop of `find_unused_prefix`
(spec section 4.6 steps 1-2): starting at candidate `i`, select the first
stem whose `ext` file and whose `.empty` sibling both do not exist in the
output directory.  Fuel-bounded linear search. -/
def reserveSearch (dir : List (List Char)) (title ext : List Char) :
    Nat → Nat → Option (List Char)
  | 0, _ => none
  | fuel + 1, i =>
    let stem := candStem title i
    if dir.contains (stem ++ ext) || dir.contains (stem ++ (".empty").toList) then
      reserveSearch dir title ext fuel (i + 1)
    else some stem

/-- Modelled from the spec: `ClipperActor::reserve_output_path`
(src/actors/clipper_actor.rs lines 159-174) combined with
`find_unused_prefix` (spec section 4.6 steps 3-4): select a stem, replace the
extension with `.empty`, create that zero-byte placeholder (touch) and return
its path together with the updated directory. -/
def reserve_output_path (dir : List (List Char)) (title ext : List Char) :
    Option (List Char × List (List Char)) :=
  (reserveSearch dir title ext (2 ^ 16) 0).map
    (fun stem => (stem ++ (".empty").toList, (stem ++ (".empty").toList) :: dir))

/-! ## Helper lemmas -/

theorem fallbackIfEmpty_ne_nil (ts : List Timestamp) (m : Metadata) :
    fallbackIfEmpty ts m ≠ [] := by
  cases hh : ts.isEmpty with
  | true => simp [fallbackIfEmpty, hh]
  | false =>
    simp only [fallbackIfEmpty, hh, Bool.false_eq_true, if_false]
    exact fun hnil => by simp [hnil] at hh

theorem dropLast_pair (X : List Char) (a b : Char) :
    (X ++ [a, b]).dropLast.dropLast = X := by
  have h : X ++ [a, b] = (X ++ [a]) ++ [b] := by simp
  rw [h, List.dropLast_concat, List.dropLast_concat]

theorem isPrefixOf_append_self {α : Type} [BEq α] [LawfulBEq α]
    (l1 l2 : List α) : l1.isPrefixOf (l1 ++ l2) = true := by
  induction l1 with
  | nil => cases l2 <;> rfl
  | cons a t ih => simp [List.isPrefixOf, ih]

/-! ## C5: download completeness boundary -/

/-- C5: on the timestamp-enabled path with a non-empty extracted timestamp
sequence, the Download actor treats a download as truncated and re-downloads
iff the last timestamp's start in seconds plus 10 is ≥ the metadata duration
in seconds; at the boundaries, last + 10 = duration is rejected and retried
while last + 11 = duration is accepted. -/
theorem download_completeness_boundary_C5
    (meta : Metadata) (extracted : List Timestamp) (t : Timestamp) (s : Nat)
    (hlast : extracted.getLast? = some t)
    (hsec : to_seconds t.t_start = some s)
    (hbound : s + 10 < 2 ^ 64) :
    (downloadIteration false extracted meta = IterResult.retry ↔
       meta.duration ≤ s + 10)
    ∧ (s + 10 = meta.duration →
        downloadIteration false extracted meta = IterResult.retry)
    ∧ (s + 11 = meta.duration →
        downloadIteration false extracted meta = IterResult.done extracted) := by
  have hne : extracted ≠ [] := by
    intro h; subst h; simp at hlast
  have hfall : fallbackIfEmpty extracted meta = extracted := by
    simp [fallbackIfEmpty, List.isEmpty_iff, hne]
  have hstep : downloadIteration false extracted meta
      = if s + 10 < meta.duration then IterResult.done extracted
        else IterResult.retry := by
    have hb : s + 10 < 18446744073709551616 := by simpa using hbound
    have hmod : (s + 10) % 18446744073709551616 = s + 10 :=
      Nat.mod_eq_of_lt hb
    by_cases hlt : s + 10 < meta.duration
    · have hfc : is_file_complete meta.duration extracted = some true := by
        simp [is_file_complete, hlast, hsec, hmod, hlt]
      simp [downloadIteration, hfc, hfall, hlt]
    · have hfc : is_file_complete meta.duration extracted = some false := by
        simp [is_file_complete, hlast, hsec, hmod, hlt]
      simp [downloadIteration, hfc, hlt]
  refine ⟨?_, ?_, ?_⟩
  · rw [hstep]
    by_cases hlt : s + 10 < meta.duration
    · rw [if_pos hlt]
      exact iff_of_false (by simp) (by omega)
    · rw [if_neg hlt]
      exact iff_of_true rfl (by omega)
  · intro h; rw [hstep, if_neg (by omega)]
  · intro h; rw [hstep, if_pos (by omega)]

theorem download_completeness_boundary_C5_witness :
    downloadIteration false [{ t_start := "05:00", title := "A" }]
        { title := "T", uploader := "U", duration := 310, description := "D" }
      = IterResult.retry
    ∧ downloadIteration false [{ t_start := "05:00", title := "A" }]
        { title := "T", uploader := "U", duration := 311, description := "D" }
      = IterResult.done [{ t_start := "05:00", title := "A" }] :=
  ⟨(download_completeness_boundary_C5
      { title := "T", uploader := "U", duration := 310, description := "D" }
      [{ t_start := "05:00", title := "A" }] { t_start := "05:00", title := "A" }
      300 (by decide) (by decide) (by norm_num)).2.1 (by norm_num),
   (download_completeness_boundary_C5
      { title := "T", uploader := "U", duration := 311, description := "D" }
      [{ t_start := "05:00", title := "A" }] { t_start := "05:00", title := "A" }
      300 (by decide) (by decide) (by norm_num)).2.2 (by norm_num)⟩

/-! ## C8: emitted timestamp sequence is non-empty -/

/-- C8: for every video the Download actor emits, the timestamp sequence in
the DownloadedStream is non-empty; when timestamp extraction is disabled or
the description yields no timestamps, the emitted sequence is exactly the
single entry with t_start "00:00" and title equal to metadata.title. -/
theorem download_single_fallback_C8 (skip : Bool)
    (extracted : List Timestamp) (meta : Metadata) :
    ((skip = true ∨ extracted = []) →
       downloadIteration skip extracted meta
         = IterResult.done [{ t_start := "00:00", title := meta.title }])
    ∧ (∀ ts, downloadIteration skip extracted meta = IterResult.done ts →
        ts ≠ []) := by
  constructor
  · rintro (rfl | rfl)
    · rfl
    · cases skip with
      | true => rfl
      | false => rfl
  · intro ts h
    cases skip with
    | true =>
      have hT : downloadIteration true extracted meta
          = IterResult.done (fallbackIfEmpty [] meta) := rfl
      rw [hT] at h
      injection h with h2
      rw [← h2]
      exact fallbackIfEmpty_ne_nil _ _
    | false =>
      simp only [downloadIteration, Bool.false_eq_true, if_false] at h
      cases hfc : is_file_complete meta.duration extracted with
      | none => rw [hfc] at h; exact absurd h (by simp)
      | some b =>
        rw [hfc] at h
        cases b with
        | false => exact absurd h (by simp)
        | true =>
          injection h with h2
          rw [← h2]
          exact fallbackIfEmpty_ne_nil _ _

theorem download_single_fallback_C8_witness :
    downloadIteration false []
        { title := "T", uploader := "U", duration := 600, description := "D" }
      = IterResult.done [{ t_start := "00:00", title := "T" }] :=
  (download_single_fallback_C8 false []
      { title := "T", uploader := "U", duration := 600, description := "D" }).1
    (Or.inr rfl)

/-! ## C9: `assign_work` with a zero clip count -/

/-- C9: `assign_work` has the unstated precondition `nb_clips ≥ 1`: with
`nb_clips = 0` the generated INSERT is malformed after the trailing-separator
trimming (the two pops eat the newline and the final S of VALUES), so an
error is returned — and not atomically: the prior work rows of the video are
already deleted in the returned state.  With `nb_clips ≥ 1` the INSERT is
well-formed and the call succeeds. -/
theorem assign_work_zero_C9 (db : Db) (video : Nat) :
    assign_work db video 0
      = (Except.error "Could not insert new assigned work rows",
         { db with work := db.work.filter (fun w => w.1 != video) })
    ∧ (∀ nb, 0 < nb → (assign_work db video nb).1 = Except.ok ()) := by
  constructor
  · have h0 : insertQueryOk (insertQueryChars video 0) = false := by rfl
    simp [assign_work, h0]
  · intro nb hnb
    obtain ⟨m, rfl⟩ : ∃ m, nb = m + 1 := ⟨nb - 1, by omega⟩
    have hassoc : ∀ (x y z : List Char),
        x ++ (y ++ (z ++ [',', '\n'])) = ((x ++ y) ++ z) ++ [',', '\n'] := by
      intro x y z; simp
    have key : insertQueryChars video (m + 1)
        = (("INSERT INTO work (video_id, clip_idx) VALUES\n").toList
            ++ List.flatten ((List.range m).map
                (fun idx => insertRowChars video idx)))
          ++ ("(" ++ Nat.repr video ++ ", " ++ Nat.repr m ++ ")").toList := by
      unfold insertQueryChars
      rw [List.range_succ, List.map_append, List.flatten_append,
          List.map_cons, List.map_nil, List.flatten_cons, List.flatten_nil,
          List.append_nil]
      rw [show insertRowChars video m
            = ("(" ++ Nat.repr video ++ ", " ++ Nat.repr m ++ ")").toList
              ++ [',', '\n'] from rfl]
      rw [hassoc, dropLast_pair]
    have hOk : insertQueryOk (insertQueryChars video (m + 1)) = true := by
      rw [key]
      unfold insertQueryOk
      rw [show ("INSERT INTO work (video_id, clip_idx) VALUES\n").toList
            = ("INSERT INTO work (video_id, clip_idx) VALUES").toList
              ++ ['\n'] from rfl]
      rw [List.append_assoc, List.append_assoc]
      exact isPrefixOf_append_self _ _
    simp [assign_work, hOk]

theorem assign_work_zero_C9_witness :
    assign_work { videos := [{ id := 1, status := 0, str_id := "v",
                               work_len := some 3 }],
                  work := [(1, 0), (2, 5)], nextId := 9 } 1 0
      = (Except.error "Could not insert new assigned work rows",
         { videos := [{ id := 1, status := 0, str_id := "v",
                        work_len := some 3 }],
           work := [(2, 5)], nextId := 9 })
    ∧ (assign_work { videos := [{ id := 1, status := 0, str_id := "v",
                                  work_len := some 3 }],
                     work := [(1, 0), (2, 5)], nextId := 9 } 1 2).1
      = Except.ok () :=
  ⟨(assign_work_zero_C9 _ 1).1, (assign_work_zero_C9 _ 1).2 2 (by norm_num)⟩

/-! ## C1: `check_video` -/

theorem mem_workIdxsOf (db : Db) (id i : Nat) :
    i ∈ workIdxsOf db id ↔ (id, i) ∈ db.work := by
  unfold workIdxsOf
  simp only [List.mem_map, List.mem_filter, beq_iff_eq]
  constructor
  · rintro ⟨⟨a, b⟩, ⟨hm, h1⟩, h2⟩
    simp only at h1 h2
    subst h1; subst h2
    exact hm
  · intro h
    exact ⟨(id, i), ⟨h, rfl⟩, rfl⟩

/-- C1: for every string video id, `check_video` behaves as specified: with no
row of that str_id, it inserts a new NotProcessed row and returns the fresh db
id (distinct from every existing id) with state NotProcessed; with a row
stored as Completed (status 1) or with a NULL work_len, it returns that row's
id and that state; otherwise it returns the row's id and RemainingClips(s)
where s is exactly the set of clip_idx values of the work table for that
id. -/
theorem check_video_C1 (db : Db) (vid : String)
    (hfresh : ∀ r ∈ db.videos, r.id < db.nextId) :
    (db.videos.find? (fun r => r.str_id == vid) = none →
       check_video db vid
         = (Except.ok (db.nextId, ProcessedState.NotProcessed),
            { db with
               videos := db.videos ++ [{ id := db.nextId, status := 0,
                                         str_id := vid, work_len := none }],
               nextId := db.nextId + 1 })
       ∧ ∀ r ∈ db.videos, r.id ≠ db.nextId)
    ∧ (∀ r, db.videos.find? (fun r2 => r2.str_id == vid) = some r →
       (r.status = 1 →
          check_video db vid
            = (Except.ok (r.id, ProcessedState.Completed), db))
       ∧ (r.status = 0 → r.work_len = none →
          check_video db vid
            = (Except.ok (r.id, ProcessedState.NotProcessed), db))
       ∧ (r.status = 0 → r.work_len ≠ none →
          check_video db vid
            = (Except.ok (r.id,
                 ProcessedState.RemainingClips (workIdxsOf db r.id)), db)
          ∧ ∀ i, i ∈ workIdxsOf db r.id ↔ (r.id, i) ∈ db.work)) := by
  constructor
  · intro hf
    refine ⟨by simp [check_video, hf], fun r hr => Nat.ne_of_lt (hfresh r hr)⟩
  · intro r hf
    refine ⟨?_, ?_, ?_⟩
    · intro h1
      have hd : decodeStatus r.status = some ProcessedState.Completed := by
        simp [decodeStatus, h1]
      simp [check_video, hf, hd]
    · intro h0 hwl
      have hd : decodeStatus r.status = some ProcessedState.NotProcessed := by
        simp [decodeStatus, h0]
      simp [check_video, hf, hd, hwl]
    · intro h0 hwl
      have hd : decodeStatus r.status = some ProcessedState.NotProcessed := by
        simp [decodeStatus, h0]
      exact ⟨by simp [check_video, hf, hd, hwl], fun i => mem_workIdxsOf db r.id i⟩

theorem check_video_C1_witness :
    check_video { videos := [{ id := 0, status := 0, str_id := "abc",
                               work_len := some 2 }],
                  work := [(0, 1), (0, 0), (1, 5)], nextId := 1 } "abc"
      = (Except.ok (0, ProcessedState.RemainingClips [1, 0]),
         { videos := [{ id := 0, status := 0, str_id := "abc",
                        work_len := some 2 }],
           work := [(0, 1), (0, 0), (1, 5)], nextId := 1 })
    ∧ (1 ∈ workIdxsOf { videos := [{ id := 0, status := 0, str_id := "abc",
                                     work_len := some 2 }],
                        work := [(0, 1), (0, 0), (1, 5)], nextId := 1 } 0
        ↔ (0, 1) ∈ [(0, 1), (0, 0), (1, 5)]) :=
  ⟨(((check_video_C1
      { videos := [{ id := 0, status := 0, str_id := "abc",
                     work_len := some 2 }],
        work := [(0, 1), (0, 0), (1, 5)], nextId := 1 } "abc"
      (by intro r hr; simp at hr; subst hr; decide)).2
      { id := 0, status := 0, str_id := "abc", work_len := some 2 }
      rfl).2.2 rfl (by simp)).1,
   (((check_video_C1
      { videos := [{ id := 0, status := 0, str_id := "abc",
                     work_len := some 2 }],
        work := [(0, 1), (0, 0), (1, 5)], nextId := 1 } "abc"
      (by intro r hr; simp at hr; subst hr; decide)).2
      { id := 0, status := 0, str_id := "abc", work_len := some 2 }
      rfl).2.2 rfl (by simp)).2 1⟩

/-! ## C6: unavailable streams are recorded completed and never retried -/

/-- C6: for every video id whose download fails with the UnavailableStream
error (which presupposes the cache check succeeded with a non-Completed
state), the Download actor calls `set_video_as_completed`, sends nothing
downstream, and continues rather than failing; and on any later run the id is
skipped before any download is attempted, so it is never retried. -/
theorem download_unavailable_C6 (db : Db) (vid : String) (dbId : Nat)
    (st : ProcessedState)
    (hchk : (check_video db vid).1 = Except.ok (dbId, st))
    (hst : st ≠ ProcessedState.Completed) :
    downloadStep db vid DlResult.unavailable
      = (Except.ok none, set_video_as_completed (check_video db vid).2 dbId)
    ∧ ∀ dl, downloadStep (set_video_as_completed (check_video db vid).2 dbId)
              vid dl
        = (Except.ok none,
           set_video_as_completed (check_video db vid).2 dbId) := by
  have hupd : ∀ (l : List VideoRow) (id : Nat),
      (l.map (fun r => if r.id = id then { r with status := 1 } else r)).find?
          (fun r => r.str_id == vid)
        = (l.find? (fun r => r.str_id == vid)).map
            (fun r => if r.id = id then { r with status := 1 } else r) := by
    intro l id
    rw [List.find?_map]
    have hpf : ((fun r : VideoRow => r.str_id == vid) ∘ (fun r =>
        if r.id = id then { r with status := 1 } else r))
        = fun r : VideoRow => r.str_id == vid := by
      funext r
      by_cases h : r.id = id <;> simp [h]
    rw [hpf]
  rcases hp : check_video db vid with ⟨res, db1⟩
  rw [hp] at hchk
  simp only at hchk
  subst hchk
  rcases hfind : db.videos.find? (fun r => r.str_id == vid) with _ | r
  · -- the id was not in the table: a fresh NotProcessed row was inserted
    have hcvc : check_video db vid
        = (Except.ok (db.nextId, ProcessedState.NotProcessed),
           { db with
              videos := db.videos ++ [{ id := db.nextId, status := 0,
                                        str_id := vid, work_len := none }],
              nextId := db.nextId + 1 }) := by
      simp [check_video, hfind]
    rw [hp] at hcvc
    simp only [Prod.mk.injEq, Except.ok.injEq] at hcvc
    obtain ⟨⟨hid, hstEq⟩, hdb1⟩ := hcvc
    subst hid; subst hstEq; subst hdb1
    have hfind2 : (set_video_as_completed
        { db with
           videos := db.videos ++ [{ id := db.nextId, status := 0,
                                     str_id := vid, work_len := none }],
           nextId := db.nextId + 1 } db.nextId).videos.find?
            (fun r => r.str_id == vid)
        = some { id := db.nextId, status := 1, str_id := vid,
                 work_len := none } := by
      show ((db.videos ++ [_]).map _).find? _ = _
      rw [hupd, List.find?_append, hfind]
      simp
    have hchk2 : check_video (set_video_as_completed
        { db with
           videos := db.videos ++ [{ id := db.nextId, status := 0,
                                     str_id := vid, work_len := none }],
           nextId := db.nextId + 1 } db.nextId) vid
        = (Except.ok (db.nextId, ProcessedState.Completed),
           set_video_as_completed
             { db with
                videos := db.videos ++ [{ id := db.nextId, status := 0,
                                          str_id := vid, work_len := none }],
                nextId := db.nextId + 1 } db.nextId) := by
      simp [check_video, hfind2, decodeStatus]
    exact ⟨by simp [downloadStep, hp, hst], fun dl => by
      simp [downloadStep, hchk2]⟩
  · -- a row was found: both non-error branches return its id unchanged
    cases hds : decodeStatus r.status with
    | none =>
      have hcvc : check_video db vid
          = (Except.error "Could not query specified video row", db) := by
        simp [check_video, hfind, hds]
      rw [hp] at hcvc
      simp only [Prod.mk.injEq] at hcvc
      exact absurd hcvc.1 (by simp)
    | some s =>
      have hfind2 : (set_video_as_completed db r.id).videos.find?
            (fun r2 => r2.str_id == vid)
          = some { r with status := 1 } := by
        show (db.videos.map _).find? _ = _
        rw [hupd, hfind]
        simp
      have hchk2 : check_video (set_video_as_completed db r.id) vid
          = (Except.ok (r.id, ProcessedState.Completed),
             set_video_as_completed db r.id) := by
        simp [check_video, hfind2, decodeStatus]
      by_cases hbr : s = ProcessedState.Completed ∨ r.work_len = none
      · have hcvc : check_video db vid = (Except.ok (r.id, s), db) := by
          simp [check_video, hfind, hds, hbr]
        rw [hp] at hcvc
        simp only [Prod.mk.injEq, Except.ok.injEq] at hcvc
        obtain ⟨⟨hid, hstEq⟩, hdb1⟩ := hcvc
        subst hid; subst hstEq; subst hdb1
        exact ⟨by simp [downloadStep, hp, hst], fun dl => by
          simp [downloadStep, hchk2]⟩
      · have hcvc : check_video db vid
            = (Except.ok (r.id,
                 ProcessedState.RemainingClips (workIdxsOf db r.id)), db) := by
          simp only [check_video, hfind, hds]
          rw [if_neg hbr]
        rw [hp] at hcvc
        simp only [Prod.mk.injEq, Except.ok.injEq] at hcvc
        obtain ⟨⟨hid, hstEq⟩, hdb1⟩ := hcvc
        subst hid; subst hstEq; subst hdb1
        exact ⟨by simp [downloadStep, hp, hst], fun dl => by
          simp [downloadStep, hchk2]⟩

theorem download_unavailable_C6_witness :
    downloadStep { videos := [], work := [], nextId := 0 } "v"
        DlResult.unavailable
      = (Except.ok none,
         { videos := [{ id := 0, status := 1, str_id := "v",
                        work_len := none }],
           work := [], nextId := 1 })
    ∧ downloadStep { videos := [{ id := 0, status := 1, str_id := "v",
                                  work_len := none }],
                     work := [], nextId := 1 } "v" DlResult.fatal
      = (Except.ok none,
         { videos := [{ id := 0, status := 1, str_id := "v",
                        work_len := none }],
           work := [], nextId := 1 }) :=
  ⟨(download_unavailable_C6 { videos := [], work := [], nextId := 0 } "v" 0
      ProcessedState.NotProcessed rfl (by decide)).1,
   (download_unavailable_C6 { videos := [], work := [], nextId := 0 } "v" 0
      ProcessedState.NotProcessed rfl (by decide)).2 DlResult.fatal⟩

/-! ## C2: fan-out of a DownloadedStream -/

theorem mapM_emit_of_lt (ts : List Timestamp) (work : List Nat)
    (h : ∀ i ∈ work, i < ts.length) :
    work.mapM (fun i => (ts[i]?).map (fun s => FanEvent.emit s ts[i + 1]? i))
      = some (work.map (fun i =>
          FanEvent.emit (ts.getD i default) ts[i + 1]? i)) := by
  induction work with
  | nil => rfl
  | cons a t ih =>
    have ha : a < ts.length := h a (List.mem_cons_self a t)
    have hget : ts[a]? = some (ts.getD a default) := by
      rw [List.getElem?_eq_getElem ha, List.getD_eq_getElem ts default ha]
    rw [List.mapM_cons, hget, ih (fun i hi => h i (List.mem_cons_of_mem a hi))]
    rfl

theorem range_map_mod (n m : Nat) (h : n ≤ m) :
    (List.range n).map (fun i => i % m) = List.range n := by
  have hc : ∀ a ∈ List.range n, a % m = a := fun a ha =>
    Nat.mod_eq_of_lt (lt_of_lt_of_le (List.mem_range.mp ha) h)
  calc (List.range n).map (fun i => i % m)
      = (List.range n).map (fun i => i) := List.map_congr_left hc
    _ = List.range n := List.map_id' _

/-- C2: for every DownloadedStream received by the Fan-out actor (so with the
non-empty, u16-indexable timestamp sequence the Download actor guarantees,
and with RemainingClips indexes that are in range for the sequence), the
actor emits exactly one TimestampedClip per index i of the derived set, in
order, with start = timestamps[i], end = timestamps[i+1] when it exists else
none, and clip_idx = i; the derived set is 0..len (after the assign_work
call) for NotProcessed, v for RemainingClips(v), and 0..len minus v for
ProcessedClips(v); when the derived set is empty nothing is emitted and
set_video_as_completed is called instead. -/
theorem fanout_C2 (dbId : Nat) (state : ProcessedState) (ts : List Timestamp)
    (hne : ts ≠ [])
    (hlen : ts.length < 2 ^ 16)
    (hrem : ∀ v, state = ProcessedState.RemainingClips v →
              ∀ i ∈ v, i < ts.length)
    (hnc : state ≠ ProcessedState.Completed) :
    fanoutStep dbId state ts
      = some (
          let derived : List Nat :=
            match state with
            | ProcessedState.NotProcessed => List.range ts.length
            | ProcessedState.RemainingClips v => v
            | ProcessedState.ProcessedClips v =>
                (List.range ts.length).filter (fun n => !v.contains n)
            | ProcessedState.Completed => []
          let pre : List FanEvent :=
            match state with
            | ProcessedState.NotProcessed => [FanEvent.assignWork dbId ts.length]
            | _ => []
          if derived.isEmpty then pre ++ [FanEvent.setCompleted dbId]
          else pre ++ derived.map (fun i =>
            FanEvent.emit (ts.getD i default) ts[i + 1]? i)) := by
  cases state with
  | Completed => exact absurd rfl hnc
  | NotProcessed =>
    have hlen0 : ts.length % 2 ^ 16 = ts.length := Nat.mod_eq_of_lt hlen
    have hpos : ts.length ≠ 0 := by
      simpa [List.length_eq_zero] using hne
    have hrange : (List.range ts.length).map (fun n => n % 2 ^ 16)
        = List.range ts.length := range_map_mod _ _ (le_of_lt hlen)
    have hworkne : (List.range ts.length).isEmpty = false := by
      cases hr : (List.range ts.length).isEmpty with
      | false => rfl
      | true => exact absurd (List.range_eq_nil.mp (List.isEmpty_iff.mp hr)) hpos
    have hcond : ¬(ts.length % 2 ^ 16 = 0) := by rw [hlen0]; exact hpos
    have hworknotP : ¬((List.range ts.length).isEmpty = true) := by
      simp [hworkne]
    dsimp only
    rw [show fanoutStep dbId ProcessedState.NotProcessed ts
          = fanoutEmit dbId [FanEvent.assignWork dbId (ts.length % 2 ^ 16)]
              ((List.range ts.length).map (fun n => n % 2 ^ 16)) ts from by
      unfold fanoutStep
      rw [if_neg hcond]]
    rw [hlen0, hrange]
    unfold fanoutEmit
    rw [if_neg hworknotP]
    rw [mapM_emit_of_lt ts _ (fun i hi => List.mem_range.mp hi)]
    rw [if_neg hworknotP]
    rfl
  | RemainingClips v =>
    have hv := hrem v rfl
    dsimp only
    cases hemp : v.isEmpty with
    | true =>
      have hveq : v = [] := List.isEmpty_iff.mp hemp
      subst hveq
      rfl
    | false =>
      have hempP : ¬(v.isEmpty = true) := by
        rw [hemp]; exact Bool.false_ne_true
      rw [show fanoutStep dbId (ProcessedState.RemainingClips v) ts
            = fanoutEmit dbId [] v ts from rfl]
      unfold fanoutEmit
      rw [if_neg hempP]
      rw [mapM_emit_of_lt ts v hv]
      rfl
  | ProcessedClips v =>
    have hrange : (List.range ts.length).map (fun n => n % 2 ^ 16)
        = List.range ts.length := range_map_mod _ _ (le_of_lt hlen)
    have helts : ∀ i ∈ (List.range ts.length).filter (fun n => !v.contains n),
        i < ts.length := fun i hi =>
      List.mem_range.mp (List.mem_filter.mp hi).1
    dsimp only
    rw [show fanoutStep dbId (ProcessedState.ProcessedClips v) ts
          = fanoutEmit dbId []
              (((List.range ts.length).map (fun n => n % 2 ^ 16)).filter
                (fun n => !v.contains n)) ts from rfl]
    rw [hrange]
    cases hemp :
        ((List.range ts.length).filter (fun n => !v.contains n)).isEmpty with
    | true =>
      unfold fanoutEmit
      rw [if_pos hemp]
      simp
    | false =>
      have hempP : ¬(((List.range ts.length).filter
          (fun n => !v.contains n)).isEmpty = true) := by
        rw [hemp]; exact Bool.false_ne_true
      unfold fanoutEmit
      rw [if_neg hempP]
      rw [mapM_emit_of_lt _ _ helts]
      simp

theorem fanout_C2_witness :
    fanoutStep 3 (ProcessedState.RemainingClips [1])
        [{ t_start := "00:00", title := "A" },
         { t_start := "03:00", title := "B" }]
      = some [FanEvent.emit { t_start := "03:00", title := "B" } none 1]
    ∧ fanoutStep 7 (ProcessedState.ProcessedClips [0])
        [{ t_start := "00:00", title := "A" }]
      = some [FanEvent.setCompleted 7] :=
  ⟨fanout_C2 3 (ProcessedState.RemainingClips [1])
      [{ t_start := "00:00", title := "A" },
       { t_start := "03:00", title := "B" }]
      (by decide) (by decide)
      (by intro v hv; injection hv with h; subst h; decide)
      (by decide),
   fanout_C2 7 (ProcessedState.ProcessedClips [0])
      [{ t_start := "00:00", title := "A" }]
      (by decide) (by decide)
      (by intro v hv; simp at hv)
      (by decide)⟩

/-! ## C4: clip worker side-effect order -/

/-- C4: on the successful path the Clip worker's side effects happen in this
order with none skipped: publish (rename of the temp output, falling back to
copy when the rename fails), then complete_work, then unlinking the .empty
placeholder; and on every path, whenever complete_work is reached the
published output already exists at the final path (the fold below runs the
trace prefix before the complete_work call over an arbitrary initial
filesystem). -/
theorem clipper_order_C4 (c : ClipRun)
    (hx : c.extractOk = true) (hn : c.normalizeOk = true) :
    clipperStep c
      = ([ClipEffect.touchEmpty (c.stem ++ ".empty"),
          ClipEffect.extractClip c.streamPath c.tmpExtract,
          ClipEffect.normalizeAudio c.tmpExtract c.tmpOut]
         ++ (if c.renameOk then
               [ClipEffect.renameFile c.tmpOut (c.stem ++ c.ext)]
             else [ClipEffect.copyFile c.tmpOut (c.stem ++ c.ext)])
         ++ [ClipEffect.completeWork c.dbId c.clipIdx,
             ClipEffect.removeFile (c.stem ++ ".empty")]
         ++ (if c.lastShare then [ClipEffect.setCompleted c.dbId] else []),
         true)
    ∧ (∀ c2 : ClipRun, c2.stem ++ c2.ext ≠ c2.tmpOut →
        ∀ fs : String → Bool,
          ClipEffect.completeWork c2.dbId c2.clipIdx ∈ (clipperStep c2).1 →
          fsRun fs (((clipperStep c2).1).takeWhile
              (fun e => !(e == ClipEffect.completeWork c2.dbId c2.clipIdx)))
            (c2.stem ++ c2.ext) = true) := by
  constructor
  · cases hr : c.renameOk <;> cases hl : c.lastShare <;>
      simp [clipperStep, hx, hn, hr, hl]
  · intro c2 hsep fs hmem
    have hbe : (c2.stem ++ c2.ext == c2.tmpOut) = false :=
      beq_eq_false_iff_ne.mpr hsep
    cases hx2 : c2.extractOk with
    | false =>
      exfalso
      rw [show (clipperStep c2).1
            = [ClipEffect.touchEmpty (c2.stem ++ ".empty"),
               ClipEffect.extractClip c2.streamPath c2.tmpExtract] from by
        simp [clipperStep, hx2]] at hmem
      simp at hmem
    | true =>
      cases hn2 : c2.normalizeOk with
      | false =>
        exfalso
        rw [show (clipperStep c2).1
              = [ClipEffect.touchEmpty (c2.stem ++ ".empty"),
                 ClipEffect.extractClip c2.streamPath c2.tmpExtract,
                 ClipEffect.normalizeAudio c2.tmpExtract c2.tmpOut] from by
          simp [clipperStep, hx2, hn2]] at hmem
        simp at hmem
      | true =>
        cases hr : c2.renameOk with
        | true =>
          cases hl : c2.lastShare with
          | true =>
            simp [clipperStep, hx2, hn2, hr, hl, fsRun, fsApply, hbe, hsep]
          | false =>
            simp [clipperStep, hx2, hn2, hr, hl, fsRun, fsApply, hbe, hsep]
        | false =>
          cases hl : c2.lastShare with
          | true =>
            simp [clipperStep, hx2, hn2, hr, hl, fsRun, fsApply, hbe, hsep]
          | false =>
            simp [clipperStep, hx2, hn2, hr, hl, fsRun, fsApply, hbe, hsep]

theorem clipper_order_C4_witness :
    clipperStep { dbId := 1, clipIdx := 2, stem := "out/A", ext := ".ogg",
                  streamPath := "s", tmpExtract := "t1", tmpOut := "t2",
                  extractOk := true, normalizeOk := true, renameOk := false,
                  lastShare := true }
      = ([ClipEffect.touchEmpty "out/A.empty",
          ClipEffect.extractClip "s" "t1",
          ClipEffect.normalizeAudio "t1" "t2",
          ClipEffect.copyFile "t2" "out/A.ogg",
          ClipEffect.completeWork 1 2,
          ClipEffect.removeFile "out/A.empty",
          ClipEffect.setCompleted 1], true)
    ∧ fsRun (fun _ => false)
        (((clipperStep { dbId := 1, clipIdx := 2, stem := "out/A",
                         ext := ".ogg", streamPath := "s", tmpExtract := "t1",
                         tmpOut := "t2", extractOk := true,
                         normalizeOk := true, renameOk := false,
                         lastShare := true }).1).takeWhile
          (fun e => !(e == ClipEffect.completeWork 1 2)))
        "out/A.ogg" = true :=
  ⟨((clipper_order_C4
       { dbId := 1, clipIdx := 2, stem := "out/A", ext := ".ogg",
         streamPath := "s", tmpExtract := "t1", tmpOut := "t2",
         extractOk := true, normalizeOk := true, renameOk := false,
         lastShare := true } rfl rfl).1).trans (by decide),
   (clipper_order_C4
       { dbId := 1, clipIdx := 2, stem := "out/A", ext := ".ogg",
         streamPath := "s", tmpExtract := "t1", tmpOut := "t2",
         extractOk := true, normalizeOk := true, renameOk := false,
         lastShare := true } rfl rfl).2
     { dbId := 1, clipIdx := 2, stem := "out/A", ext := ".ogg",
       streamPath := "s", tmpExtract := "t1", tmpOut := "t2",
       extractOk := true, normalizeOk := true, renameOk := false,
       lastShare := true } (by decide) (fun _ => false) (by decide)⟩

/-! ## C3: shared-ownership completion signal -/

theorem completionCalls_eq (n : Nat) (tr : List RcEvent)
    (hlen : tr.length = n + 1) :
    completionCalls n tr
      = (match tr.getLast? with
         | some (RcEvent.clipDone i) => [i]
         | _ => []) := by
  unfold completionCalls
  rw [hlen, List.range_succ, List.filterMap_append]
  have h1 : (List.range n).filterMap (fun k =>
      match tr[k]? with
      | some (RcEvent.clipDone i) => if n + 1 - k = 1 then some i else none
      | _ => none) = [] := by
    rw [List.filterMap_eq_nil_iff]
    intro k hk
    have hklt : k < n := List.mem_range.mp hk
    have hne1 : ¬(n + 1 - k = 1) := by omega
    cases htk : tr[k]? with
    | none => rfl
    | some e =>
      cases e with
      | fanoutDrop => rfl
      | clipDone i => simp [hne1]
  rw [h1]
  have h2 : tr.getLast? = tr[n]? := by
    rw [List.getLast?_eq_getElem?, hlen]
    simp
  rw [h2]
  simp only [List.nil_append]
  cases htn : tr[n]? with
  | none => simp [htn]
  | some e =>
    cases e with
    | fanoutDrop => simp [htn]
    | clipDone i => simp [htn, show n + 1 - n = 1 from by omega]

/-- C3 counterexample: the full order in which the n + 1 references of a
one-clip video are released is unconstrained between the worker's
strong-count test and the Fan-out actor's own drop, and in the valid release
order where the worker finishes before the Fan-out actor drops its handle,
the worker observes a strong count of 2, so no set_video_as_completed call is
made for the video at all — contradicting the claim that the call is made by
the worker that processes the video's last in-flight clip.  (The code even
anticipates this: the Fan-out actor's empty-work path marks such a video
completed on a later run, src/actors/timestamp_actor.rs lines 72-79.) -/
theorem arc_completion_C3_cex :
    ([RcEvent.clipDone 0, RcEvent.fanoutDrop].Perm (rcEvents 1))
    ∧ completionCalls 1 [RcEvent.clipDone 0, RcEvent.fanoutDrop] = [] := by
  constructor
  · have h : rcEvents 1 = [RcEvent.fanoutDrop, RcEvent.clipDone 0] := rfl
    rw [h]
    exact List.Perm.swap _ _ _
  · decide

/-- C3 amended: in every complete release order of the n + 1 StreamInfo
references of a video with n in-flight clips, a worker calls
set_video_as_completed exactly when it observes strong count 1, which happens
iff its release is the last of all n + 1; so the call is made at most once,
by the worker holding the video's last in-flight clip — but only when the
Fan-out actor's own reference was dropped earlier; when the Fan-out actor's
drop comes last, no completion call is made for the video.  After the full
trace no reference is live, so the temp file is released. -/
theorem arc_completion_C3_amended (n : Nat) (tr : List RcEvent)
    (hperm : tr.Perm (rcEvents n)) :
    completionCalls n tr
      = (match tr.getLast? with
         | some (RcEvent.clipDone i) => [i]
         | _ => [])
    ∧ n + 1 - tr.length = 0 := by
  have hlen : tr.length = n + 1 := by
    have hl := hperm.length_eq
    simpa [rcEvents] using hl
  exact ⟨completionCalls_eq n tr hlen, by omega⟩

theorem arc_completion_C3_amended_witness :
    completionCalls 2
        [RcEvent.fanoutDrop, RcEvent.clipDone 1, RcEvent.clipDone 0] = [0]
    ∧ 2 + 1 - ([RcEvent.fanoutDrop, RcEvent.clipDone 1,
                RcEvent.clipDone 0] : List RcEvent).length = 0 :=
  arc_completion_C3_amended 2
    [RcEvent.fanoutDrop, RcEvent.clipDone 1, RcEvent.clipDone 0] (by decide)

/-! ## C10: the output-name probe loop -/

theorem bopLoop_all_taken (title ext : List Char) (ex : List Char → Bool)
    (hex : ∀ p, ex p = true) :
    ∀ fuel i, bopLoop ex title ext fuel i = none := by
  intro fuel
  induction fuel with
  | zero => intro i; rfl
  | succ m ih =>
    intro i
    unfold bopLoop
    rw [hex, if_pos rfl]
    exact ih (i + 1)

/-- C10 counterexample: in a directory where every name exists, the probe
loop of build_output_path is still searching after 70000 probes — more than
the 65535 probes after which the claim says an error is returned — and the
probe of index 65535 is the candidate with n = 0, which the wrapped u16
counter produces even though the claim says n ranges over 2..=65535 only.
(The error return after the for loop is unreachable: a RangeFrom iterator
never ends; it wraps in a release build and panics in a debug build.) -/
theorem build_output_path_C10_cex :
    bopLoop (fun _ => true) ("t").toList (".ogg").toList 70000 0 = none
    ∧ bopCandidate ("t").toList (".ogg").toList 65535
        = ("t (0).ogg").toList := by
  refine ⟨bopLoop_all_taken _ _ _ (fun _ => rfl) 70000 0, ?_⟩
  decide

/-- C10 amended: build_output_path probes title+ext and then title" (n)"+ext
where n is a u16 counter that starts at 2 and wraps modulo 2^16 (so n = 0 and
n = 1 are probed after 65535); whenever the loop returns a path it is the
first probed candidate that does not exist, every earlier probe having hit an
existing file; and when every name exists the loop never returns — the error
return after it is unreachable. -/
theorem build_output_path_C10_amended (ex : List Char → Bool)
    (title ext : List Char) :
    (∀ fuel i c, bopLoop ex title ext fuel i = some c →
       ∃ k, k < fuel ∧ c = bopCandidate title ext (i + k)
         ∧ ex (bopCandidate title ext (i + k)) = false
         ∧ ∀ j, j < k → ex (bopCandidate title ext (i + j)) = true)
    ∧ ((∀ p, ex p = true) → ∀ fuel i, bopLoop ex title ext fuel i = none) := by
  constructor
  · intro fuel
    induction fuel with
    | zero =>
      intro i c h
      exact absurd h (by simp [bopLoop])
    | succ m ih =>
      intro i c h
      unfold bopLoop at h
      cases hx : ex (bopCandidate title ext i) with
      | true =>
        rw [hx, if_pos rfl] at h
        obtain ⟨k, hk, hc, hexf, hall⟩ := ih (i + 1) c h
        refine ⟨k + 1, by omega, ?_, ?_, ?_⟩
        · rw [show i + (k + 1) = i + 1 + k from by omega]; exact hc
        · rw [show i + (k + 1) = i + 1 + k from by omega]; exact hexf
        · intro j hj
          cases j with
          | zero => simpa using hx
          | succ j2 =>
            rw [show i + (j2 + 1) = i + 1 + j2 from by omega]
            exact hall j2 (by omega)
      | false =>
        rw [hx] at h
        simp only [Bool.false_eq_true, if_false, Option.some.injEq] at h
        exact ⟨0, by omega, by rw [Nat.add_zero]; exact h.symm,
               by rw [Nat.add_zero]; exact hx,
               fun j hj => absurd hj (by omega)⟩
  · intro hex fuel i
    exact bopLoop_all_taken title ext ex hex fuel i

theorem build_output_path_C10_amended_witness :
    (∃ k, k < 2
       ∧ ("t (2).ogg").toList
           = bopCandidate ("t").toList (".ogg").toList (0 + k)
       ∧ (fun p => p == ("t.ogg").toList)
           (bopCandidate ("t").toList (".ogg").toList (0 + k)) = false
       ∧ ∀ j, j < k → (fun p => p == ("t.ogg").toList)
           (bopCandidate ("t").toList (".ogg").toList (0 + j)) = true)
    ∧ bopLoop (fun _ => true) ("t").toList (".ogg").toList 3 0 = none :=
  ⟨(build_output_path_C10_amended (fun p => p == ("t.ogg").toList)
      (("t").toList) ((".ogg").toList)).1 2 0 (("t (2).ogg").toList)
      (by decide),
   (build_output_path_C10_amended (fun _ => true) (("t").toList)
      ((".ogg").toList)).2 (fun _ => rfl) 3 0⟩

/-! ## C7: output-path reservation (spec-modelled `find_unused_prefix`) -/

theorem reserveSearch_succ (dir : List (List Char)) (title ext : List Char)
    (fuel i : Nat) :
    reserveSearch dir title ext (fuel + 1) i
      = if dir.contains (candStem title i ++ ext)
           || dir.contains (candStem title i ++ (".empty").toList) then
          reserveSearch dir title ext fuel (i + 1)
        else some (candStem title i) := rfl

theorem reserveSearch_some (dir : List (List Char)) (title ext : List Char) :
    ∀ fuel i stem, reserveSearch dir title ext fuel i = some stem →
      ∃ k, k < fuel ∧ stem = candStem title (i + k)
        ∧ dir.contains (candStem title (i + k) ++ ext) = false
        ∧ dir.contains (candStem title (i + k) ++ (".empty").toList) = false
        ∧ ∀ j, j < k →
            (dir.contains (candStem title (i + j) ++ ext)
              || dir.contains (candStem title (i + j) ++ (".empty").toList))
              = true := by
  intro fuel
  induction fuel with
  | zero =>
    intro i stem h
    exact absurd h (by simp [reserveSearch])
  | succ m ih =>
    intro i stem h
    rw [reserveSearch_succ] at h
    cases hx : (dir.contains (candStem title i ++ ext)
        || dir.contains (candStem title i ++ (".empty").toList)) with
    | true =>
      rw [hx, if_pos rfl] at h
      obtain ⟨k, hk, hc, hxf, hef, hall⟩ := ih (i + 1) stem h
      refine ⟨k + 1, by omega, ?_, ?_, ?_, ?_⟩
      · rw [show i + (k + 1) = i + 1 + k from by omega]; exact hc
      · rw [show i + (k + 1) = i + 1 + k from by omega]; exact hxf
      · rw [show i + (k + 1) = i + 1 + k from by omega]; exact hef
      · intro j hj
        cases j with
        | zero => simpa using hx
        | succ j2 =>
          rw [show i + (j2 + 1) = i + 1 + j2 from by omega]
          exact hall j2 (by omega)
    | false =>
      rw [hx] at h
      simp only [Bool.false_eq_true, if_false, Option.some.injEq] at h
      obtain ⟨hxf, hef⟩ := Bool.or_eq_false_iff.mp hx
      exact ⟨0, by omega, by rw [Nat.add_zero]; exact h.symm,
             by rw [Nat.add_zero]; exact hxf,
             by rw [Nat.add_zero]; exact hef,
             fun j hj => absurd hj (by omega)⟩

theorem suffix2_ne_empty (s : List Char) :
    (" (2)").toList ++ s ≠ (".empty").toList := by
  intro h
  have h2 : (' ' :: '(' :: '2' :: ')' :: ([] : List Char)) ++ s
      = '.' :: 'e' :: 'm' :: 'p' :: 't' :: 'y' :: [] := h
  rw [List.cons_append] at h2
  injection h2 with h1 _
  exact absurd h1 (by decide)

theorem suffix3_ne_empty (s : List Char) :
    (" (3)").toList ++ s ≠ (".empty").toList := by
  intro h
  have h2 : (' ' :: '(' :: '3' :: ')' :: ([] : List Char)) ++ s
      = '.' :: 'e' :: 'm' :: 'p' :: 't' :: 'y' :: [] := h
  rw [List.cons_append] at h2
  injection h2 with h1 _
  exact absurd h1 (by decide)

theorem suffix3_ne_suffix2empty (s : List Char) :
    (" (3)").toList ++ s ≠ (" (2)").toList ++ (".empty").toList := by
  intro h
  have h2 : (' ' :: '(' :: '3' :: ')' :: ([] : List Char)) ++ s
      = (' ' :: '(' :: '2' :: ')' :: ([] : List Char))
          ++ ('.' :: 'e' :: 'm' :: 'p' :: 't' :: 'y' :: []) := h
  simp only [List.cons_append, List.nil_append] at h2
  injection h2 with e1 h2
  injection h2 with e2 h2
  injection h2 with e3 _
  exact absurd e3 (by decide)

theorem candStem_one (title : List Char) :
    candStem title 1 = title ++ (" (2)").toList := by
  have hsfx : (" (").toList ++ ((Nat.repr 2).toList ++ (")").toList)
      = (" (2)").toList := by decide
  show title ++ (" (").toList ++ (Nat.repr 2).toList ++ (")").toList
      = title ++ (" (2)").toList
  rw [List.append_assoc, List.append_assoc, hsfx]

theorem candStem_two (title : List Char) :
    candStem title 2 = title ++ (" (3)").toList := by
  have hsfx : (" (").toList ++ ((Nat.repr 3).toList ++ (")").toList)
      = (" (3)").toList := by decide
  show title ++ (" (").toList ++ (Nat.repr 3).toList ++ (")").toList
      = title ++ (" (3)").toList
  rw [List.append_assoc, List.append_assoc, hsfx]

/-- C7 (spec-modelled, see `reserveSearch`): for every title and extension,
output-path reservation selects the first candidate — in the order title+ext,
title" (2)"+ext, title" (3)"+ext, ... — such that neither the candidate nor
its .empty sibling exists in the output directory, and it creates the .empty
placeholder at the selected name (first conjunct); hence, since
`candStem title 1 = title (2)` and `candStem title 2 = title (3)`, a fixed
sequence of reservations of the same (title, ext) on a directory initially
free of the relevant names reserves title, title" (2)", title" (3)" in that
order, whose final-extension outputs are title.ext, title (2).ext,
title (3).ext (second conjunct). -/
theorem reserve_output_path_C7 (dir : List (List Char)) (title ext : List Char) :
    (∀ p dir2, reserve_output_path dir title ext = some (p, dir2) →
       ∃ k, p = candStem title k ++ (".empty").toList
         ∧ dir2 = (candStem title k ++ (".empty").toList) :: dir
         ∧ dir.contains (candStem title k ++ ext) = false
         ∧ dir.contains (candStem title k ++ (".empty").toList) = false
         ∧ ∀ j, j < k →
             (dir.contains (candStem title j ++ ext)
               || dir.contains (candStem title j ++ (".empty").toList))
               = true)
    ∧ ((∀ idx, idx < 3 →
          dir.contains (candStem title idx ++ ext) = false
          ∧ dir.contains (candStem title idx ++ (".empty").toList) = false) →
        reserve_output_path dir title ext
          = some (title ++ (".empty").toList,
                  (title ++ (".empty").toList) :: dir)
        ∧ reserve_output_path ((title ++ (".empty").toList) :: dir) title ext
          = some (candStem title 1 ++ (".empty").toList,
                  (candStem title 1 ++ (".empty").toList)
                    :: (title ++ (".empty").toList) :: dir)
        ∧ reserve_output_path
            ((candStem title 1 ++ (".empty").toList)
              :: (title ++ (".empty").toList) :: dir) title ext
          = some (candStem title 2 ++ (".empty").toList,
                  (candStem title 2 ++ (".empty").toList)
                    :: (candStem title 1 ++ (".empty").toList)
                    :: (title ++ (".empty").toList) :: dir)) := by
  constructor
  · intro p dir2 h
    unfold reserve_output_path at h
    cases hrs : reserveSearch dir title ext (2 ^ 16) 0 with
    | none => rw [hrs] at h; exact absurd h (by simp)
    | some stem =>
      rw [hrs] at h
      simp only [Option.map_some', Option.some.injEq, Prod.mk.injEq] at h
      obtain ⟨hp, hdir⟩ := h
      obtain ⟨k, _, hstem, hxf, hef, hall⟩ :=
        reserveSearch_some dir title ext (2 ^ 16) 0 stem hrs
      rw [Nat.zero_add] at hstem hxf hef
      refine ⟨k, by rw [← hp, hstem], by rw [← hdir, hstem], hxf, hef, ?_⟩
      intro j hj
      have := hall j hj
      rwa [Nat.zero_add] at this
  · intro hyp
    have h0 := hyp 0 (by omega)
    have h1 := hyp 1 (by omega)
    have h2 := hyp 2 (by omega)
    have hm0e : candStem title 0 ++ ext ∉ dir := by simpa using h0.1
    have hm0m : candStem title 0 ++ (".empty").toList ∉ dir := by
      simpa using h0.2
    have hm1e : candStem title 1 ++ ext ∉ dir := by simpa using h1.1
    have hm1m : candStem title 1 ++ (".empty").toList ∉ dir := by
      simpa using h1.2
    have hm2e : candStem title 2 ++ ext ∉ dir := by simpa using h2.1
    have hm2m : candStem title 2 ++ (".empty").toList ∉ dir := by
      simpa using h2.2
    have hne1e : candStem title 1 ++ ext ≠ title ++ (".empty").toList := by
      rw [candStem_one, List.append_assoc]
      intro h
      exact suffix2_ne_empty ext (List.append_cancel_left h)
    have hne1t : candStem title 1 ≠ title := by
      rw [candStem_one]
      intro h
      have h3 := congrArg List.length h
      simp at h3
    have hne1m : candStem title 1 ++ (".empty").toList
        ≠ title ++ (".empty").toList := by
      rw [candStem_one, List.append_assoc]
      intro h
      exact suffix2_ne_empty (".empty").toList (List.append_cancel_left h)
    have hne2e1 : candStem title 2 ++ ext
        ≠ candStem title 1 ++ (".empty").toList := by
      rw [candStem_two, candStem_one, List.append_assoc, List.append_assoc]
      intro h
      exact suffix3_ne_suffix2empty ext (List.append_cancel_left h)
    have hne2e0 : candStem title 2 ++ ext ≠ title ++ (".empty").toList := by
      rw [candStem_two, List.append_assoc]
      intro h
      exact suffix3_ne_empty ext (List.append_cancel_left h)
    have hne2m1 : candStem title 2 ++ (".empty").toList
        ≠ candStem title 1 ++ (".empty").toList := by
      rw [candStem_two, candStem_one, List.append_assoc, List.append_assoc]
      intro h
      exact suffix3_ne_suffix2empty (".empty").toList
        (List.append_cancel_left h)
    have hne2m0 : candStem title 2 ++ (".empty").toList
        ≠ title ++ (".empty").toList := by
      rw [candStem_two, List.append_assoc]
      intro h
      exact suffix3_ne_empty (".empty").toList (List.append_cancel_left h)
    have hne21 : candStem title 2 ≠ candStem title 1 := by
      rw [candStem_two, candStem_one]
      intro h
      exact absurd (List.append_cancel_left h) (by decide)
    have hne2t : candStem title 2 ≠ title := by
      rw [candStem_two]
      intro h
      have h3 := congrArg List.length h
      simp at h3
    have hstep1 : reserveSearch dir title ext (2 ^ 16) 0 = some title := by
      have hcond : (dir.contains (candStem title 0 ++ ext)
          || dir.contains (candStem title 0 ++ (".empty").toList)) = false := by
        rw [h0.1, h0.2]
        rfl
      rw [show (2 : Nat) ^ 16 = 65535 + 1 from by norm_num, reserveSearch_succ,
          if_neg (by rw [hcond]; exact Bool.false_ne_true)]
      rfl
    have hstep2 : reserveSearch ((title ++ (".empty").toList) :: dir)
        title ext (2 ^ 16) 0 = some (candStem title 1) := by
      have hskip0 : (((title ++ (".empty").toList) :: dir).contains
            (candStem title 0 ++ ext)
          || ((title ++ (".empty").toList) :: dir).contains
            (candStem title 0 ++ (".empty").toList)) = true := by
        simp [candStem, List.contains_cons]
      have hcond1 : (((title ++ (".empty").toList) :: dir).contains
            (candStem title 1 ++ ext)
          || ((title ++ (".empty").toList) :: dir).contains
            (candStem title 1 ++ (".empty").toList)) = false := by
        simp [List.contains_cons, hne1e, hne1m, hne1t, hm1e, hm1m]
        exact ⟨hne1e, hm1m⟩
      rw [show (2 : Nat) ^ 16 = 65534 + 1 + 1 from by norm_num,
          reserveSearch_succ, if_pos hskip0, reserveSearch_succ,
          if_neg (by rw [hcond1]; exact Bool.false_ne_true)]
    have hstep3 : reserveSearch ((candStem title 1 ++ (".empty").toList)
          :: (title ++ (".empty").toList) :: dir) title ext (2 ^ 16) 0
        = some (candStem title 2) := by
      have hskip0 : (((candStem title 1 ++ (".empty").toList)
            :: (title ++ (".empty").toList) :: dir).contains
              (candStem title 0 ++ ext)
          || ((candStem title 1 ++ (".empty").toList)
            :: (title ++ (".empty").toList) :: dir).contains
              (candStem title 0 ++ (".empty").toList)) = true := by
        simp [candStem, List.contains_cons]
      have hskip1 : (((candStem title 1 ++ (".empty").toList)
            :: (title ++ (".empty").toList) :: dir).contains
              (candStem title 1 ++ ext)
          || ((candStem title 1 ++ (".empty").toList)
            :: (title ++ (".empty").toList) :: dir).contains
              (candStem title 1 ++ (".empty").toList)) = true := by
        simp [List.contains_cons]
      have hcond2 : (((candStem title 1 ++ (".empty").toList)
            :: (title ++ (".empty").toList) :: dir).contains
              (candStem title 2 ++ ext)
          || ((candStem title 1 ++ (".empty").toList)
            :: (title ++ (".empty").toList) :: dir).contains
              (candStem title 2 ++ (".empty").toList)) = false := by
        simp [List.contains_cons, hne2e1, hne2e0, hne2m1, hne2m0, hne21,
          hne2t, hm2e, hm2m]
        and_intros <;>
          first
          | exact hne2e1
          | exact hne2e0
          | exact hm2e
          | exact hne2m1
          | exact hne2m0
          | exact hm2m
      rw [show (2 : Nat) ^ 16 = 65533 + 1 + 1 + 1 from by norm_num,
          reserveSearch_succ, if_pos hskip0, reserveSearch_succ,
          if_pos hskip1, reserveSearch_succ,
          if_neg (by rw [hcond2]; exact Bool.false_ne_true)]
    refine ⟨?_, ?_, ?_⟩
    · unfold reserve_output_path
      rw [hstep1]
      rfl
    · unfold reserve_output_path
      rw [hstep2]
      rfl
    · unfold reserve_output_path
      rw [hstep3]
      rfl

theorem reserve_output_path_C7_witness :
    reserve_output_path [] ("Intro").toList (".ogg").toList
      = some (("Intro").toList ++ (".empty").toList,
              [("Intro").toList ++ (".empty").toList])
    ∧ reserve_output_path [("Intro").toList ++ (".empty").toList]
        ("Intro").toList (".ogg").toList
      = some (candStem ("Intro").toList 1 ++ (".empty").toList,
              [candStem ("Intro").toList 1 ++ (".empty").toList,
               ("Intro").toList ++ (".empty").toList]) :=
  ⟨((reserve_output_path_C7 [] ("Intro").toList (".ogg").toList).2
      (by decide)).1,
   ((reserve_output_path_C7 [] ("Intro").toList (".ogg").toList).2
      (by decide)).2.1⟩

end Gawr
